import Mathlib

/-!
# Quickmart Grocery Backend — shallow embedding of the cart/order core

This file embeds the cart and order routes of `src/App.js` (an Express +
Mongoose application) as pure Lean functions over an explicit database
state, and proves the specification's claims about them.

Modelling decisions:
* JavaScript numbers (product prices, line-item quantities) are modelled
  as integers `ℤ` with exact arithmetic; product object ids as `Nat`; user
  ids as `String`.  Every claim settled here concerns the structure of the
  computations (folds, merges, frame conditions), none depends on the
  numeric domain.
* A Mongoose collection is a list of documents.  `Cart.findOne({userId})`
  is `List.find?`; `document.save()` replaces the first document with the
  same key or appends a new one (`putCart`).
* `populate("items.productId")` resolves a line item's product reference
  against the product collection; a dangling reference resolves to `null`,
  and a subsequent field dereference (`item.productId.price`) throws a
  `TypeError` that the route's `catch` turns into a 500 response.  This is
  modelled by the resolving functions returning `.error .Internal`.
* HTTP status codes are mapped to the spec's error taxonomy:
  404 → `NotFound`, 400 → `InvalidState`, 500 → `Internal`.
-/

set_option autoImplicit false

namespace Quickmart

/-- Product object id (Mongo `ObjectId`, opaque). -/
abbrev ProductId := Nat

/-- User identifier (the uuid string carried by the token). -/
abbrev UserId := String

/-- `productSchema` of `src/App.js` (lines 29–36). -/
structure Product where
  name : String
  description : String
  price : ℤ
  quantity : ℤ
  image : String
  category : String
deriving Repr, DecidableEq

/-- A cart (and order) line item: `{ productId, quantity }`
(`cartSchema.items` / `orderSchema.items`, lines 42–47 and 54–59). -/
structure LineItem where
  productId : ProductId
  quantity : ℤ
deriving Repr, DecidableEq

/-- `cartSchema` of `src/App.js` (lines 40–48). -/
structure Cart where
  userId : UserId
  items : List LineItem
deriving Repr, DecidableEq

/-- `orderSchema` of `src/App.js` (lines 52–64); `status` defaults to
`"Pending"` at construction. -/
structure Order where
  userId : UserId
  items : List LineItem
  totalPrice : ℤ
  address : String
  paymentMethod : String
  status : String
deriving Repr, DecidableEq

/-- The database state: the three collections the cart/order core touches.
Orders are addressed by their position in the collection (a fresh id is the
index at which `order.save()` appended the document). -/
structure DB where
  products : List (ProductId × Product)
  carts : List Cart
  orders : List Order
deriving Repr, DecidableEq

/-- Error taxonomy of the spec (§7), as surfaced by the routes'
status codes: 404 → `NotFound`, 400 → `InvalidState`, 500 → `Internal`. -/
inductive ApiError where
  | NotFound
  | InvalidState
  | Internal
deriving Repr, DecidableEq

/-- Route results are `Except` values; equality of results on concrete
states is decidable. -/
instance {ε α : Type} [DecidableEq ε] [DecidableEq α] : DecidableEq (Except ε α)
  | .ok a, .ok b =>
    if h : a = b then .isTrue (congrArg Except.ok h)
    else .isFalse (fun hh => h (Except.ok.inj hh))
  | .ok _, .error _ => .isFalse (fun hh => nomatch hh)
  | .error _, .ok _ => .isFalse (fun hh => nomatch hh)
  | .error a, .error b =>
    if h : a = b then .isTrue (congrArg Except.error h)
    else .isFalse (fun hh => h (Except.error.inj hh))

/-- `Product.findById(productId)` — resolve a product reference against the
catalog. -/
def findProduct (pid : ProductId) (db : DB) : Option Product :=
  (db.products.find? (fun e => e.1 = pid)).map (fun e => e.2)

/-- `Cart.findOne({ userId })`. -/
def cartOf (u : UserId) (db : DB) : Option Cart :=
  db.carts.find? (fun c => c.userId = u)

/-- The user's cart's line items, `[]` when no cart document exists. -/
def userItems (u : UserId) (db : DB) : List LineItem :=
  ((cartOf u db).map Cart.items).getD []

/-- `cart.save()` — replace the first cart document with the same `userId`,
or insert the document if none exists. -/
def putCart (c : Cart) : List Cart → List Cart
  | [] => [c]
  | k :: rest => if k.userId = c.userId then c :: rest else k :: putCart c rest

/-- One entry of the cart view returned by `GET /api/cart`
(lines 143–149): the line expanded against the catalog. -/
structure CartViewItem where
  id : ProductId
  name : String
  price : ℤ
  quantity : ℤ
  image : String
deriving Repr, DecidableEq

/-- The `cart.items.map(...)` body of `GET /api/cart`: each line's
populated product is dereferenced for `name`/`price`/`image`.  A dangling
reference populates to `null`, so the dereference throws and the route
answers 500 (`Internal`) for the whole request. -/
def resolveItems (db : DB) : List LineItem → Except ApiError (List CartViewItem)
  | [] => .ok []
  | it :: rest =>
    match findProduct it.productId db with
    | none => .error .Internal
    | some p =>
      (resolveItems db rest).map
        (fun vs => ⟨it.productId, p.name, p.price, it.quantity, p.image⟩ :: vs)

/-- `GET /api/cart` (lines 138–153): read-only; a missing cart document
answers with an empty collection and creates nothing. -/
def getCart (u : UserId) (db : DB) : Except ApiError (List CartViewItem) × DB :=
  match cartOf u db with
  | none => (.ok [], db)
  | some cart => (resolveItems db cart.items, db)

/-- `existingItem.quantity += quantity` — increment the quantity of the
first line matching the product (the one `cart.items.find` returns). -/
def incFirst (pid : ProductId) (q : ℤ) : List LineItem → List LineItem
  | [] => []
  | it :: rest =>
    if it.productId = pid then { it with quantity := it.quantity + q } :: rest
    else it :: incFirst pid q rest

/-- The merge step of `POST /api/cart` (lines 164–166): if a line item for
the product already exists, increment the first such line's quantity in
place; otherwise push a new line at the end. -/
def mergeItem (pid : ProductId) (q : ℤ) (items : List LineItem) : List LineItem :=
  if items.any (fun it => it.productId = pid) then incFirst pid q items
  else items ++ [⟨pid, q⟩]

/-- `POST /api/cart` (lines 155–173), `addItem` of the spec: reject an
unknown product with 404 (`NotFound`); otherwise look up or lazily create
the user's cart, merge the quantity, and save.  The route performs no
validation of `quantity` itself. -/
def addItem (u : UserId) (pid : ProductId) (q : ℤ) (db : DB) :
    Except ApiError Cart × DB :=
  match findProduct pid db with
  | none => (.error .NotFound, db)
  | some _ =>
    let cart := (cartOf u db).getD ⟨u, []⟩
    let cart' : Cart := { cart with items := mergeItem pid q cart.items }
    (.ok cart', { db with carts := putCart cart' db.carts })

/-- The `cart.items.reduce(...)` of `POST /api/order` (line 182): a left
fold accumulating `price * quantity` over the populated lines.  A dangling
product reference populates to `null`, `item.productId.price` throws, and
the route answers 500 (`Internal`). -/
def computeTotal (db : DB) (acc : ℤ) : List LineItem → Except ApiError ℤ
  | [] => .ok acc
  | it :: rest =>
    match findProduct it.productId db with
    | none => .error .Internal
    | some p => computeTotal db (acc + p.price * it.quantity) rest

/-- A durable write issued by the checkout route, in the order the route
issues them. -/
inductive Write where
  | saveOrder : Order → Write
  | saveCart : Cart → Write
deriving Repr, DecidableEq

/-- Apply one durable write to the database state. -/
def applyWrite (db : DB) : Write → DB
  | .saveOrder o => { db with orders := db.orders ++ [o] }
  | .saveCart c => { db with carts := putCart c db.carts }

/-- `POST /api/order` (lines 176–193), `placeOrder` of the spec: reject a
missing or empty cart with 400 (`InvalidState`); compute the total over the
populated lines; construct the order (status defaulting to `"Pending"`),
save it; then clear the cart's items and save the cart. -/
def placeOrder (u : UserId) (address paymentMethod : String) (db : DB) :
    Except ApiError Order × DB :=
  match cartOf u db with
  | none => (.error .InvalidState, db)
  | some cart =>
    if cart.items = [] then (.error .InvalidState, db)
    else
      match computeTotal db 0 cart.items with
      | .error e => (.error e, db)
      | .ok total =>
        let o : Order := ⟨u, cart.items, total, address, paymentMethod, "Pending"⟩
        let db₁ := applyWrite db (.saveOrder o)
        let db₂ := applyWrite db₁ (.saveCart { cart with items := [] })
        (.ok o, db₂)

/-- The sequence of durable writes `POST /api/order` issues, in program
order: `order.save()` (line 184) strictly before `cart.save()` (line 187);
an error path issues no write. -/
def placeOrderWrites (u : UserId) (address paymentMethod : String) (db : DB) :
    List Write :=
  match cartOf u db with
  | none => []
  | some cart =>
    if cart.items = [] then []
    else
      match computeTotal db 0 cart.items with
      | .error _ => []
      | .ok total =>
        [.saveOrder ⟨u, cart.items, total, address, paymentMethod, "Pending"⟩,
         .saveCart { cart with items := [] }]

/-- The unit price a line item resolves to (used to state totals). -/
def priceOf (pid : ProductId) (db : DB) : ℤ :=
  ((findProduct pid db).map Product.price).getD 0

/-- The spec's total: sum over all lines of resolved unit price × quantity. -/
def specTotal (db : DB) (items : List LineItem) : ℤ :=
  (items.map (fun it => priceOf it.productId db * it.quantity)).sum

/-- Total quantity a cart holds for one product (sum over its lines). -/
def qtyOf (pid : ProductId) (items : List LineItem) : ℤ :=
  ((items.filter (fun it => it.productId = pid)).map LineItem.quantity).sum

/-- Iterated `addItem` for one user and one product. -/
def applyAdds (u : UserId) (pid : ProductId) (qs : List ℤ) (db : DB) : DB :=
  qs.foldl (fun d q => (addItem u pid q d).2) db

/-! ## Lemmas about the persistence model -/

theorem cartOf_userId {u : UserId} {db : DB} {c : Cart}
    (h : cartOf u db = some c) : c.userId = u := by
  simpa using List.find?_some h

theorem find?_putCart_self {u : UserId} {c : Cart} (hc : c.userId = u) :
    ∀ l : List Cart, (putCart c l).find? (fun k => k.userId = u) = some c := by
  intro l
  induction l with
  | nil => simp [putCart, hc]
  | cons k rest ih =>
    by_cases hk : k.userId = c.userId
    · simp [putCart, hk, hc]
    · have hku : ¬ k.userId = u := by rw [hc] at hk; exact hk
      simp [putCart, hk, hku, ih]

theorem cartOf_put {u : UserId} {c : Cart} (hc : c.userId = u)
    (db : DB) (l : List Cart) :
    cartOf u { db with carts := putCart c l } = some c := by
  simpa [cartOf] using find?_putCart_self hc l

/-! ## Lemmas about `addItem` -/

theorem addItem_found {u : UserId} {pid : ProductId} {q : ℤ} {db : DB}
    {p : Product} (hp : findProduct pid db = some p) :
    addItem u pid q db =
      (.ok { (cartOf u db).getD ⟨u, []⟩ with
               items := mergeItem pid q (((cartOf u db).getD ⟨u, []⟩).items) },
       { db with
           carts := putCart
             { (cartOf u db).getD ⟨u, []⟩ with
                 items := mergeItem pid q (((cartOf u db).getD ⟨u, []⟩).items) }
             db.carts }) := by
  unfold addItem
  rw [hp]

theorem addItem_products (u : UserId) (pid : ProductId) (q : ℤ) (db : DB) :
    ((addItem u pid q db).2).products = db.products := by
  unfold addItem
  cases h : findProduct pid db <;> simp

theorem addItem_orders (u : UserId) (pid : ProductId) (q : ℤ) (db : DB) :
    ((addItem u pid q db).2).orders = db.orders := by
  unfold addItem
  cases h : findProduct pid db <;> simp

theorem findProduct_carts (pid : ProductId) (db : DB) (l : List Cart) :
    findProduct pid { db with carts := l } = findProduct pid db := rfl

theorem mergeItem_nil (pid : ProductId) (q : ℤ) :
    mergeItem pid q [] = [⟨pid, q⟩] := by
  simp [mergeItem]

theorem mergeItem_single (pid : ProductId) (q acc : ℤ) :
    mergeItem pid q [⟨pid, acc⟩] = [⟨pid, acc + q⟩] := by
  simp [mergeItem, incFirst]

theorem qtyOf_incFirst {pid : ProductId} {q : ℤ} :
    ∀ {items : List LineItem},
      items.any (fun it => it.productId = pid) = true →
      qtyOf pid (incFirst pid q items) = qtyOf pid items + q
  | [], h => by simp at h
  | it :: rest, h => by
    by_cases hm : it.productId = pid
    · simp only [incFirst, if_pos hm, qtyOf, List.filter_cons]
      simp [hm]
      ring
    · have h' : rest.any (fun it => it.productId = pid) = true := by
        simpa [List.any_cons, hm] using h
      simp only [incFirst, if_neg hm, qtyOf, List.filter_cons]
      have := qtyOf_incFirst (q := q) h'
      simp only [qtyOf] at this
      simp [hm, this]

theorem qtyOf_mergeItem (pid : ProductId) (q : ℤ) (items : List LineItem) :
    qtyOf pid (mergeItem pid q items) = qtyOf pid items + q := by
  unfold mergeItem
  by_cases h : items.any (fun it => it.productId = pid) = true
  · rw [if_pos h, qtyOf_incFirst h]
  · rw [if_neg h]
    simp [qtyOf, List.filter_append]

/-! ## Lemmas about `computeTotal` and `resolveItems` -/

theorem computeTotal_ok {db : DB} :
    ∀ {l : List LineItem} (acc : ℤ),
      (∀ it ∈ l, (findProduct it.productId db).isSome) →
      computeTotal db acc l = .ok (acc + specTotal db l)
  | [], acc, _ => by simp [computeTotal, specTotal]
  | it :: rest, acc, h => by
    obtain ⟨p, hp⟩ :=
      Option.isSome_iff_exists.mp (h it (List.mem_cons_self it rest))
    have hrest : ∀ i ∈ rest, (findProduct i.productId db).isSome :=
      fun i hi => h i (List.mem_cons_of_mem it hi)
    rw [computeTotal, hp]
    show computeTotal db (acc + p.price * it.quantity) rest = _
    rw [computeTotal_ok (acc + p.price * it.quantity) hrest]
    simp only [specTotal, List.map_cons, List.sum_cons, priceOf, hp,
      Option.map_some', Option.getD_some]
    congr 1
    ring

theorem computeTotal_missing {db : DB} :
    ∀ {l : List LineItem} (acc : ℤ) {it : LineItem},
      it ∈ l → findProduct it.productId db = none →
      computeTotal db acc l = .error .Internal
  | [], _, _, hmem, _ => absurd hmem (List.not_mem_nil _)
  | a :: rest, acc, it, hmem, hnone => by
    rcases List.mem_cons.mp hmem with rfl | hrest
    · rw [computeTotal, hnone]
    · cases ha : findProduct a.productId db with
      | none => rw [computeTotal, ha]
      | some p =>
        rw [computeTotal, ha]
        exact computeTotal_missing (acc + p.price * a.quantity) hrest hnone

theorem resolveItems_missing {db : DB} :
    ∀ {l : List LineItem} {it : LineItem},
      it ∈ l → findProduct it.productId db = none →
      resolveItems db l = .error .Internal
  | [], _, hmem, _ => absurd hmem (List.not_mem_nil _)
  | a :: rest, it, hmem, hnone => by
    rcases List.mem_cons.mp hmem with rfl | hrest
    · rw [resolveItems, hnone]
    · cases ha : findProduct a.productId db with
      | none => rw [resolveItems, ha]
      | some p =>
        rw [resolveItems, ha, resolveItems_missing hrest hnone]
        rfl

/-! ## Shape lemmas about `placeOrder` -/

theorem getD_cartOf_userId (u : UserId) (db : DB) :
    ((cartOf u db).getD ⟨u, []⟩).userId = u := by
  cases h : cartOf u db with
  | none => rfl
  | some c => simpa using cartOf_userId h

theorem userItems_eq_getD (u : UserId) (db : DB) :
    userItems u db = ((cartOf u db).getD ⟨u, []⟩).items := by
  cases h : cartOf u db <;> simp [userItems, h]

theorem placeOrder_found {u a pm : String} {db : DB} {c : Cart} {t : ℤ}
    (hc : cartOf u db = some c) (hne : c.items ≠ [])
    (ht : computeTotal db 0 c.items = .ok t) :
    placeOrder u a pm db =
      (.ok ⟨u, c.items, t, a, pm, "Pending"⟩,
       applyWrite (applyWrite db (.saveOrder ⟨u, c.items, t, a, pm, "Pending"⟩))
         (.saveCart { c with items := [] })) := by
  unfold placeOrder
  simp only [hc, if_neg hne, ht]

theorem placeOrderWrites_found {u a pm : String} {db : DB} {c : Cart} {t : ℤ}
    (hc : cartOf u db = some c) (hne : c.items ≠ [])
    (ht : computeTotal db 0 c.items = .ok t) :
    placeOrderWrites u a pm db =
      [.saveOrder ⟨u, c.items, t, a, pm, "Pending"⟩,
       .saveCart { c with items := [] }] := by
  unfold placeOrderWrites
  simp only [hc, if_neg hne, ht]

theorem placeOrder_ok_shape {u a pm : String} {db : DB} {o : Order}
    (h : (placeOrder u a pm db).1 = .ok o) :
    ∃ c t, cartOf u db = some c ∧ c.items ≠ [] ∧
      computeTotal db 0 c.items = .ok t ∧
      o = ⟨u, c.items, t, a, pm, "Pending"⟩ := by
  cases hc : cartOf u db with
  | none =>
    rw [show placeOrder u a pm db = (.error .InvalidState, db) by
      unfold placeOrder; rw [hc]] at h
    exact absurd h (by simp)
  | some c =>
    by_cases he : c.items = []
    · rw [show placeOrder u a pm db = (.error .InvalidState, db) by
        unfold placeOrder; simp only [hc, if_pos he]] at h
      exact absurd h (by simp)
    · cases ht : computeTotal db 0 c.items with
      | error e =>
        rw [show placeOrder u a pm db = (.error e, db) by
          unfold placeOrder; simp only [hc, if_neg he, ht]] at h
        exact absurd h (by simp)
      | ok t =>
        rw [placeOrder_found hc he ht] at h
        exact ⟨c, t, rfl, he, ht, (Except.ok.inj h).symm⟩

/-! ## Lemmas about iterated `addItem` -/

theorem applyAdds_cons (u : UserId) (pid : ProductId) (q : ℤ) (qs : List ℤ)
    (db : DB) :
    applyAdds u pid (q :: qs) db = applyAdds u pid qs (addItem u pid q db).2 :=
  rfl

theorem applyAdds_single {u : UserId} {pid : ProductId} {p : Product} :
    ∀ (qs : List ℤ) (db : DB) (acc : ℤ),
      findProduct pid db = some p →
      cartOf u db = some ⟨u, [⟨pid, acc⟩]⟩ →
      cartOf u (applyAdds u pid qs db) = some ⟨u, [⟨pid, acc + qs.sum⟩]⟩
  | [], db, acc, _, hc => by simpa [applyAdds] using hc
  | q :: qs, db, acc, hp, hc => by
    have h1 : addItem u pid q db =
        (.ok ⟨u, [⟨pid, acc + q⟩]⟩,
         { db with carts := putCart ⟨u, [⟨pid, acc + q⟩]⟩ db.carts }) := by
      rw [addItem_found hp, hc]
      simp [mergeItem_single]
    rw [applyAdds_cons, h1]
    have hp' : findProduct pid
        { db with carts := putCart ⟨u, [⟨pid, acc + q⟩]⟩ db.carts } = some p := hp
    have hc' : cartOf u
        { db with carts := putCart ⟨u, [⟨pid, acc + q⟩]⟩ db.carts } =
        some ⟨u, [⟨pid, acc + q⟩]⟩ :=
      cartOf_put (c := ⟨u, [⟨pid, acc + q⟩]⟩) rfl db db.carts
    have := applyAdds_single qs _ (acc + q) hp' hc'
    simpa [add_assoc] using this

theorem applyAdds_from_none {u : UserId} {pid : ProductId} {p : Product}
    {db : DB} (qs : List ℤ)
    (hp : findProduct pid db = some p) (h0 : cartOf u db = none)
    (hne : qs ≠ []) :
    cartOf u (applyAdds u pid qs db) = some ⟨u, [⟨pid, qs.sum⟩]⟩ := by
  match qs, hne with
  | q :: qs, _ =>
    have h1 : addItem u pid q db =
        (.ok ⟨u, [⟨pid, q⟩]⟩,
         { db with carts := putCart ⟨u, [⟨pid, q⟩]⟩ db.carts }) := by
      rw [addItem_found hp, h0]
      simp [mergeItem_nil]
    rw [applyAdds_cons, h1]
    have hp' : findProduct pid
        { db with carts := putCart ⟨u, [⟨pid, q⟩]⟩ db.carts } = some p := hp
    have hc' : cartOf u
        { db with carts := putCart ⟨u, [⟨pid, q⟩]⟩ db.carts } =
        some ⟨u, [⟨pid, q⟩]⟩ :=
      cartOf_put (c := ⟨u, [⟨pid, q⟩]⟩) rfl db db.carts
    have := applyAdds_single qs _ q hp' hc'
    simpa using this

/-! ## Claim theorems -/

/-- **C2.** Starting from a state where the user has no cart, every
non-empty sequence of successful `addItem` calls naming one existing
product leaves the cart with exactly one line item for that product whose
quantity is the sum of all quantities passed; and this single-line shape
already holds after every call of the sequence. -/
theorem addItem_merge_accumulates (u : UserId) (pid : ProductId)
    {p : Product} (qs : List ℤ) (db : DB)
    (hp : findProduct pid db = some p) (h0 : cartOf u db = none)
    (hne : qs ≠ []) :
    cartOf u (applyAdds u pid qs db) = some ⟨u, [⟨pid, qs.sum⟩]⟩ ∧
    ∀ n, 0 < n →
      cartOf u (applyAdds u pid (qs.take n) db) =
        some ⟨u, [⟨pid, (qs.take n).sum⟩]⟩ := by
  refine ⟨applyAdds_from_none qs hp h0 hne, fun n hn => ?_⟩
  have htake : qs.take n ≠ [] := by
    simp [List.take_eq_nil_iff, hne, Nat.pos_iff_ne_zero.mp hn]
  exact applyAdds_from_none (qs.take n) hp h0 htake

/-- Witness for C2: adding quantities 2 then 3 of product 1 yields the
single line `{productId 1, quantity 5}`. -/
theorem addItem_merge_accumulates_witness :
    cartOf "u1" (applyAdds "u1" 1 [2, 3]
        ⟨[(1, ⟨"Apple", "fruit", 2, 10, "a.png", "produce"⟩)], [], []⟩) =
      some ⟨"u1", [⟨1, 5⟩]⟩ ∧
    ∀ n, 0 < n →
      cartOf "u1" (applyAdds "u1" 1 ([2, 3].take n)
          ⟨[(1, ⟨"Apple", "fruit", 2, 10, "a.png", "produce"⟩)], [], []⟩) =
        some ⟨"u1", [⟨1, ([2, 3].take n).sum⟩]⟩ :=
  addItem_merge_accumulates "u1" 1
    (p := ⟨"Apple", "fruit", 2, 10, "a.png", "produce"⟩) [2, 3]
    ⟨[(1, ⟨"Apple", "fruit", 2, 10, "a.png", "produce"⟩)], [], []⟩
    (by decide) (by decide) (by decide)

/-- **C1.** For every user whose cart exists and contains at least one line
item, each referencing a product present in the catalog, `placeOrder`
creates an Order whose `totalPrice` is the sum over all cart lines of
(the product's current unit price × the line's quantity), whose items are
a copy of the cart's (product reference, quantity) pairs, whose status is
`"Pending"`, and afterwards the user's cart's item collection is empty, so
a subsequent `getCart` returns an empty collection. -/
theorem placeOrder_checkout (u a pm : String) (db : DB) (c : Cart)
    (hc : cartOf u db = some c) (hne : c.items ≠ [])
    (hall : ∀ it ∈ c.items, (findProduct it.productId db).isSome) :
    (placeOrder u a pm db).1 =
      .ok ⟨u, c.items, specTotal db c.items, a, pm, "Pending"⟩ ∧
    ((placeOrder u a pm db).2).orders =
      db.orders ++ [⟨u, c.items, specTotal db c.items, a, pm, "Pending"⟩] ∧
    cartOf u (placeOrder u a pm db).2 = some { c with items := [] } ∧
    (getCart u (placeOrder u a pm db).2).1 = .ok [] := by
  have hu : c.userId = u := cartOf_userId hc
  have ht : computeTotal db 0 c.items = .ok (specTotal db c.items) := by
    rw [computeTotal_ok 0 hall, zero_add]
  rw [placeOrder_found hc hne ht]
  have hcart :
      cartOf u (applyWrite (applyWrite db
          (.saveOrder ⟨u, c.items, specTotal db c.items, a, pm, "Pending"⟩))
        (.saveCart { c with items := [] })) = some { c with items := [] } := by
    simp only [applyWrite]
    exact cartOf_put (by simpa using hu)
      ⟨db.products, db.carts,
       db.orders ++ [⟨u, c.items, specTotal db c.items, a, pm, "Pending"⟩]⟩
      db.carts
  refine ⟨rfl, by simp [applyWrite], hcart, ?_⟩
  unfold getCart
  rw [hcart]
  rfl

/-- Witness for C1, on the spec's own example: a cart
`[{P1, price 2, qty 3}, {P2, price 5, qty 1}]` checks out to an Order with
`totalPrice = 11`, status `"Pending"`, and the cart is left empty. -/
theorem placeOrder_checkout_witness :
    (placeOrder "u1" "addr" "card"
        ⟨[(1, ⟨"P1", "d1", 2, 10, "p1.png", "produce"⟩),
          (2, ⟨"P2", "d2", 5, 10, "p2.png", "produce"⟩)],
         [⟨"u1", [⟨1, 3⟩, ⟨2, 1⟩]⟩], []⟩).1 =
      .ok ⟨"u1", [⟨1, 3⟩, ⟨2, 1⟩],
        specTotal
          ⟨[(1, ⟨"P1", "d1", 2, 10, "p1.png", "produce"⟩),
            (2, ⟨"P2", "d2", 5, 10, "p2.png", "produce"⟩)],
           [⟨"u1", [⟨1, 3⟩, ⟨2, 1⟩]⟩], []⟩ [⟨1, 3⟩, ⟨2, 1⟩],
        "addr", "card", "Pending"⟩ ∧
    ((placeOrder "u1" "addr" "card"
        ⟨[(1, ⟨"P1", "d1", 2, 10, "p1.png", "produce"⟩),
          (2, ⟨"P2", "d2", 5, 10, "p2.png", "produce"⟩)],
         [⟨"u1", [⟨1, 3⟩, ⟨2, 1⟩]⟩], []⟩).2).orders =
      [] ++ [⟨"u1", [⟨1, 3⟩, ⟨2, 1⟩],
        specTotal
          ⟨[(1, ⟨"P1", "d1", 2, 10, "p1.png", "produce"⟩),
            (2, ⟨"P2", "d2", 5, 10, "p2.png", "produce"⟩)],
           [⟨"u1", [⟨1, 3⟩, ⟨2, 1⟩]⟩], []⟩ [⟨1, 3⟩, ⟨2, 1⟩],
        "addr", "card", "Pending"⟩] ∧
    cartOf "u1" (placeOrder "u1" "addr" "card"
        ⟨[(1, ⟨"P1", "d1", 2, 10, "p1.png", "produce"⟩),
          (2, ⟨"P2", "d2", 5, 10, "p2.png", "produce"⟩)],
         [⟨"u1", [⟨1, 3⟩, ⟨2, 1⟩]⟩], []⟩).2 = some ⟨"u1", []⟩ ∧
    (getCart "u1" (placeOrder "u1" "addr" "card"
        ⟨[(1, ⟨"P1", "d1", 2, 10, "p1.png", "produce"⟩),
          (2, ⟨"P2", "d2", 5, 10, "p2.png", "produce"⟩)],
         [⟨"u1", [⟨1, 3⟩, ⟨2, 1⟩]⟩], []⟩).2).1 = .ok [] ∧
    specTotal
      ⟨[(1, ⟨"P1", "d1", 2, 10, "p1.png", "produce"⟩),
        (2, ⟨"P2", "d2", 5, 10, "p2.png", "produce"⟩)],
       [⟨"u1", [⟨1, 3⟩, ⟨2, 1⟩]⟩], []⟩ [⟨1, 3⟩, ⟨2, 1⟩] = 11 := by
  have h := placeOrder_checkout "u1" "addr" "card"
    ⟨[(1, ⟨"P1", "d1", 2, 10, "p1.png", "produce"⟩),
      (2, ⟨"P2", "d2", 5, 10, "p2.png", "produce"⟩)],
     [⟨"u1", [⟨1, 3⟩, ⟨2, 1⟩]⟩], []⟩
    ⟨"u1", [⟨1, 3⟩, ⟨2, 1⟩]⟩ (by decide) (by decide) (by decide)
  exact ⟨h.1, h.2.1, h.2.2.1, h.2.2.2, by decide⟩

/-- **C3.** In every successful execution of `placeOrder`, the durable
writes are exactly `order.save()` followed by the write that clears the
cart, in that order; folding any number of leading writes yields no
intermediate state in which the cart has been emptied while the Order is
not yet present. -/
theorem placeOrder_order_persisted_before_clear (u a pm : String) (db : DB)
    (o : Order) (h : (placeOrder u a pm db).1 = .ok o) :
    (placeOrder u a pm db).2 = (placeOrderWrites u a pm db).foldl applyWrite db ∧
    (∃ c, cartOf u db = some c ∧ c.items ≠ [] ∧
       placeOrderWrites u a pm db =
         [.saveOrder o, .saveCart { c with items := [] }]) ∧
    ∀ n, userItems u (((placeOrderWrites u a pm db).take n).foldl applyWrite db) = [] →
      o ∈ (((placeOrderWrites u a pm db).take n).foldl applyWrite db).orders := by
  obtain ⟨c, t, hc, hne, ht, ho⟩ := placeOrder_ok_shape h
  have hw : placeOrderWrites u a pm db =
      [.saveOrder o, .saveCart { c with items := [] }] := by
    rw [placeOrderWrites_found hc hne ht, ho]
  have hitems : userItems u db = c.items := by simp [userItems, hc]
  refine ⟨?_, ⟨c, hc, hne, hw⟩, ?_⟩
  · rw [placeOrder_found hc hne ht, hw, ho]
    rfl
  · intro n
    rw [hw]
    match n with
    | 0 =>
      intro hempty
      simp only [List.take_zero, List.foldl_nil] at hempty
      exact absurd (hitems ▸ hempty) hne
    | 1 =>
      intro _
      simp [applyWrite]
    | n + 2 =>
      intro _
      simp [applyWrite]

/-- Witness for C3: the concrete checkout of the C1 example, with its two
writes in order. -/
theorem placeOrder_order_persisted_before_clear_witness :
    (placeOrder "u1" "addr" "card"
        ⟨[(1, ⟨"P1", "d1", 2, 10, "p1.png", "produce"⟩)],
         [⟨"u1", [⟨1, 3⟩]⟩], []⟩).2 =
      (placeOrderWrites "u1" "addr" "card"
        ⟨[(1, ⟨"P1", "d1", 2, 10, "p1.png", "produce"⟩)],
         [⟨"u1", [⟨1, 3⟩]⟩], []⟩).foldl applyWrite
        ⟨[(1, ⟨"P1", "d1", 2, 10, "p1.png", "produce"⟩)],
         [⟨"u1", [⟨1, 3⟩]⟩], []⟩ ∧
    (∃ c, cartOf "u1"
        ⟨[(1, ⟨"P1", "d1", 2, 10, "p1.png", "produce"⟩)],
         [⟨"u1", [⟨1, 3⟩]⟩], []⟩ = some c ∧ c.items ≠ [] ∧
       placeOrderWrites "u1" "addr" "card"
        ⟨[(1, ⟨"P1", "d1", 2, 10, "p1.png", "produce"⟩)],
         [⟨"u1", [⟨1, 3⟩]⟩], []⟩ =
         [.saveOrder ⟨"u1", [⟨1, 3⟩], 6, "addr", "card", "Pending"⟩,
          .saveCart { c with items := [] }]) ∧
    ∀ n, userItems "u1" (((placeOrderWrites "u1" "addr" "card"
        ⟨[(1, ⟨"P1", "d1", 2, 10, "p1.png", "produce"⟩)],
         [⟨"u1", [⟨1, 3⟩]⟩], []⟩).take n).foldl applyWrite
        ⟨[(1, ⟨"P1", "d1", 2, 10, "p1.png", "produce"⟩)],
         [⟨"u1", [⟨1, 3⟩]⟩], []⟩) = [] →
      (⟨"u1", [⟨1, 3⟩], 6, "addr", "card", "Pending"⟩ : Order) ∈
        (((placeOrderWrites "u1" "addr" "card"
          ⟨[(1, ⟨"P1", "d1", 2, 10, "p1.png", "produce"⟩)],
           [⟨"u1", [⟨1, 3⟩]⟩], []⟩).take n).foldl applyWrite
          ⟨[(1, ⟨"P1", "d1", 2, 10, "p1.png", "produce"⟩)],
           [⟨"u1", [⟨1, 3⟩]⟩], []⟩).orders :=
  placeOrder_order_persisted_before_clear "u1" "addr" "card"
    ⟨[(1, ⟨"P1", "d1", 2, 10, "p1.png", "produce"⟩)], [⟨"u1", [⟨1, 3⟩]⟩], []⟩
    ⟨"u1", [⟨1, 3⟩], 6, "addr", "card", "Pending"⟩ (by decide)

/-- **C6 (counterexample).** A non-empty cart referencing a product missing
from the catalog: `placeOrder` fails, but with an `Internal` error (the
populated reference is null and the price dereference throws, caught by the
route's 500 handler), not with `NotFound` as the claim states. -/
theorem placeOrder_missing_product_not_notfound :
    cartOf "u1" ⟨[], [⟨"u1", [⟨1, 1⟩]⟩], []⟩ = some ⟨"u1", [⟨1, 1⟩]⟩ ∧
    findProduct 1 ⟨[], [⟨"u1", [⟨1, 1⟩]⟩], []⟩ = none ∧
    placeOrder "u1" "addr" "card" ⟨[], [⟨"u1", [⟨1, 1⟩]⟩], []⟩ =
      (.error .Internal, ⟨[], [⟨"u1", [⟨1, 1⟩]⟩], []⟩) ∧
    (placeOrder "u1" "addr" "card" ⟨[], [⟨"u1", [⟨1, 1⟩]⟩], []⟩).1 ≠
      .error .NotFound := by
  decide

/-- **C6 (amended).** For every user whose non-empty cart contains a line
item whose referenced product is missing from the catalog at checkout
time, `placeOrder` fails — with an `Internal` error rather than `NotFound`
— creating no Order and changing no state; it never silently skips the
missing product's line. -/
theorem placeOrder_missing_product_fails (u a pm : String) (db : DB)
    (c : Cart) (it : LineItem) (hc : cartOf u db = some c)
    (hne : c.items ≠ []) (hmem : it ∈ c.items)
    (hmiss : findProduct it.productId db = none) :
    placeOrder u a pm db = (.error .Internal, db) := by
  unfold placeOrder
  simp only [hc, if_neg hne, computeTotal_missing 0 hmem hmiss]

/-- Witness for amended C6. -/
theorem placeOrder_missing_product_fails_witness :
    placeOrder "u2" "addr" "upi" ⟨[], [⟨"u2", [⟨3, 2⟩]⟩], []⟩ =
      (.error .Internal, ⟨[], [⟨"u2", [⟨3, 2⟩]⟩], []⟩) :=
  placeOrder_missing_product_fails "u2" "addr" "upi"
    ⟨[], [⟨"u2", [⟨3, 2⟩]⟩], []⟩ ⟨"u2", [⟨3, 2⟩]⟩ ⟨3, 2⟩
    (by decide) (by decide) (by decide) (by decide)

/-- **C7 (counterexample).** `POST /api/cart` performs no validation of
`quantity`: with an existing product and quantity `0` (not a positive
integer), `addItem` succeeds and writes the zero-quantity line instead of
failing with `InvalidState` and leaving the cart unchanged. -/
theorem addItem_zero_quantity_accepted :
    findProduct 1 ⟨[(1, ⟨"Apple", "fruit", 2, 10, "a.png", "produce"⟩)], [], []⟩ =
      some ⟨"Apple", "fruit", 2, 10, "a.png", "produce"⟩ ∧
    addItem "u1" 1 0 ⟨[(1, ⟨"Apple", "fruit", 2, 10, "a.png", "produce"⟩)], [], []⟩ =
      (.ok ⟨"u1", [⟨1, 0⟩]⟩,
       ⟨[(1, ⟨"Apple", "fruit", 2, 10, "a.png", "produce"⟩)],
        [⟨"u1", [⟨1, 0⟩]⟩], []⟩) ∧
    (addItem "u1" 1 0
        ⟨[(1, ⟨"Apple", "fruit", 2, 10, "a.png", "produce"⟩)], [], []⟩).1 ≠
      .error .InvalidState ∧
    (addItem "u1" 1 0
        ⟨[(1, ⟨"Apple", "fruit", 2, 10, "a.png", "produce"⟩)], [], []⟩).2 ≠
      ⟨[(1, ⟨"Apple", "fruit", 2, 10, "a.png", "produce"⟩)], [], []⟩ := by
  decide

/-- **C7 (amended).** The route validates only the product: for every
quantity — positive or not — `addItem` with an existing productId never
fails; it merges the quantity as given, so the cart's total quantity for
that product changes by exactly the supplied amount. -/
theorem addItem_no_quantity_validation (u : UserId) (pid : ProductId)
    (q : ℤ) (db : DB) {p : Product} (hp : findProduct pid db = some p) :
    (∀ e, (addItem u pid q db).1 ≠ .error e) ∧
    qtyOf pid (userItems u (addItem u pid q db).2) =
      qtyOf pid (userItems u db) + q := by
  rw [addItem_found hp]
  constructor
  · intro e he
    exact nomatch he
  · rw [userItems_eq_getD u db]
    obtain ⟨k, hk⟩ : ∃ k, (cartOf u db).getD ⟨u, []⟩ = k := ⟨_, rfl⟩
    rw [hk]
    have hu : k.userId = u := hk ▸ getD_cartOf_userId u db
    have hcart :=
      cartOf_put (c := { k with items := mergeItem pid q k.items })
        (by simpa using hu) db db.carts
    simp only [userItems, hcart, Option.map_some', Option.getD_some]
    exact qtyOf_mergeItem pid q k.items

/-- Witness for amended C7: adding quantity `-3` of an existing product
succeeds and lowers the cart's quantity for it by 3. -/
theorem addItem_no_quantity_validation_witness :
    (∀ e, (addItem "u1" 1 (-3)
        ⟨[(1, ⟨"Apple", "fruit", 2, 10, "a.png", "produce"⟩)],
         [⟨"u1", [⟨1, 5⟩]⟩], []⟩).1 ≠ .error e) ∧
    qtyOf 1 (userItems "u1" (addItem "u1" 1 (-3)
        ⟨[(1, ⟨"Apple", "fruit", 2, 10, "a.png", "produce"⟩)],
         [⟨"u1", [⟨1, 5⟩]⟩], []⟩).2) =
      qtyOf 1 (userItems "u1"
        ⟨[(1, ⟨"Apple", "fruit", 2, 10, "a.png", "produce"⟩)],
         [⟨"u1", [⟨1, 5⟩]⟩], []⟩) + (-3) :=
  addItem_no_quantity_validation "u1" 1 (-3)
    ⟨[(1, ⟨"Apple", "fruit", 2, 10, "a.png", "produce"⟩)],
     [⟨"u1", [⟨1, 5⟩]⟩], []⟩
    (p := ⟨"Apple", "fruit", 2, 10, "a.png", "produce"⟩) (by decide)

/-- **C8.** An Order's stored `totalPrice` is a snapshot: re-reading the
order (by its index) after any replacement of the product catalog or the
cart collection, after any `addItem`, after any further `placeOrder`, or
after any `getCart` yields the unchanged order, hence the unchanged
`totalPrice` computed at creation; nothing ever recomputes it. -/
theorem order_total_snapshot (db : DB) (i : Nat) (o : Order)
    (h : db.orders[i]? = some o) :
    (∀ (ps : List (ProductId × Product)) (cs : List Cart),
        (DB.mk ps cs db.orders).orders[i]? = some o ∧
        ((DB.mk ps cs db.orders).orders[i]?.map Order.totalPrice) =
          some o.totalPrice) ∧
    (∀ (u : UserId) (pid : ProductId) (q : ℤ),
        ((addItem u pid q db).2).orders[i]? = some o) ∧
    (∀ u a pm : String, ((placeOrder u a pm db).2).orders[i]? = some o) ∧
    (∀ v : UserId, ((getCart v db).2).orders[i]? = some o) := by
  have hlt : i < db.orders.length := (List.getElem?_eq_some.mp h).1
  refine ⟨fun ps cs => ⟨h, by simp [h]⟩,
    fun u pid q => ?_, fun u a pm => ?_, fun v => ?_⟩
  · rw [addItem_orders]
    exact h
  · cases hc : cartOf u db with
    | none =>
      rw [show placeOrder u a pm db = (.error .InvalidState, db) by
        unfold placeOrder; rw [hc]]
      exact h
    | some c =>
      by_cases he : c.items = []
      · rw [show placeOrder u a pm db = (.error .InvalidState, db) by
          unfold placeOrder; simp only [hc, if_pos he]]
        exact h
      · cases ht : computeTotal db 0 c.items with
        | error e =>
          rw [show placeOrder u a pm db = (.error e, db) by
            unfold placeOrder; simp only [hc, if_neg he, ht]]
          exact h
        | ok t =>
          rw [placeOrder_found hc he ht]
          simp only [applyWrite]
          rw [List.getElem?_append, if_pos hlt]
          exact h
  · unfold getCart
    cases cartOf v db <;> exact h

/-- Witness for C8: a state holding one already-created order with
`totalPrice = 11`. -/
theorem order_total_snapshot_witness :
    (∀ (ps : List (ProductId × Product)) (cs : List Cart),
        (DB.mk ps cs [⟨"u1", [⟨1, 3⟩], 11, "addr", "card", "Pending"⟩]).orders[0]? =
          some ⟨"u1", [⟨1, 3⟩], 11, "addr", "card", "Pending"⟩ ∧
        ((DB.mk ps cs
            [⟨"u1", [⟨1, 3⟩], 11, "addr", "card", "Pending"⟩]).orders[0]?.map
          Order.totalPrice) = some (11 : ℤ)) ∧
    (∀ (u : UserId) (pid : ProductId) (q : ℤ),
        ((addItem u pid q
            ⟨[(1, ⟨"P1", "d1", 2, 10, "p1.png", "produce"⟩)], [],
             [⟨"u1", [⟨1, 3⟩], 11, "addr", "card", "Pending"⟩]⟩).2).orders[0]? =
          some ⟨"u1", [⟨1, 3⟩], 11, "addr", "card", "Pending"⟩) ∧
    (∀ u a pm : String,
        ((placeOrder u a pm
            ⟨[(1, ⟨"P1", "d1", 2, 10, "p1.png", "produce"⟩)], [],
             [⟨"u1", [⟨1, 3⟩], 11, "addr", "card", "Pending"⟩]⟩).2).orders[0]? =
          some ⟨"u1", [⟨1, 3⟩], 11, "addr", "card", "Pending"⟩) ∧
    (∀ v : UserId,
        ((getCart v
            ⟨[(1, ⟨"P1", "d1", 2, 10, "p1.png", "produce"⟩)], [],
             [⟨"u1", [⟨1, 3⟩], 11, "addr", "card", "Pending"⟩]⟩).2).orders[0]? =
          some ⟨"u1", [⟨1, 3⟩], 11, "addr", "card", "Pending"⟩) :=
  order_total_snapshot
    ⟨[(1, ⟨"P1", "d1", 2, 10, "p1.png", "produce"⟩)], [],
     [⟨"u1", [⟨1, 3⟩], 11, "addr", "card", "Pending"⟩]⟩ 0
    ⟨"u1", [⟨1, 3⟩], 11, "addr", "card", "Pending"⟩ (by decide)

/-- **C4.** For every user whose cart does not exist or whose cart's item
collection is empty, `placeOrder` fails with `InvalidState` ("cart empty"),
creates no Order, and leaves all state unchanged (the returned state is the
input state). -/
theorem placeOrder_empty_cart (u a pm : String) (db : DB)
    (h : ∀ c, cartOf u db = some c → c.items = []) :
    placeOrder u a pm db = (.error .InvalidState, db) := by
  unfold placeOrder
  cases hc : cartOf u db with
  | none => rfl
  | some c => simp [h c hc]

/-- Witness for C4: a state with no cart for the user. -/
theorem placeOrder_empty_cart_witness :
    placeOrder "u1" "addr" "cash" ⟨[], [], []⟩ = (.error .InvalidState, ⟨[], [], []⟩) :=
  placeOrder_empty_cart "u1" "addr" "cash" ⟨[], [], []⟩ (fun _ hc => nomatch hc)

/-- **C5.** For every user and productId with no matching Product in the
catalog, `addItem` fails with `NotFound` and the whole state — in
particular the user's cart — is unchanged: no cart is created, no line item
added or modified. -/
theorem addItem_unknown_product (u : UserId) (pid : ProductId) (q : ℤ) (db : DB)
    (h : findProduct pid db = none) :
    addItem u pid q db = (.error .NotFound, db) := by
  unfold addItem
  rw [h]

/-- Witness for C5: product 9 is absent from a one-product catalog. -/
theorem addItem_unknown_product_witness :
    findProduct 9 ⟨[(1, ⟨"Apple", "fruit", 2, 10, "a.png", "produce"⟩)], [], []⟩ = none ∧
    addItem "u1" 9 4 ⟨[(1, ⟨"Apple", "fruit", 2, 10, "a.png", "produce"⟩)], [], []⟩ =
      (.error .NotFound, ⟨[(1, ⟨"Apple", "fruit", 2, 10, "a.png", "produce"⟩)], [], []⟩) :=
  ⟨by decide,
   addItem_unknown_product "u1" 9 4
     ⟨[(1, ⟨"Apple", "fruit", 2, 10, "a.png", "produce"⟩)], [], []⟩ (by decide)⟩

/-- **C9.** For a user with no cart record, `getCart` returns an empty
collection; and no `getCart` call (for any user) modifies any Cart,
Product, or Order state — the resulting state is the input state and no
cart record is created. -/
theorem getCart_read_only (u : UserId) (db : DB) (h : cartOf u db = none) :
    (getCart u db).1 = .ok [] ∧ ∀ v : UserId, (getCart v db).2 = db := by
  constructor
  · unfold getCart
    rw [h]
  · intro v
    unfold getCart
    cases cartOf v db <;> rfl

/-- Witness for C9: a catalog-only state with no cart documents. -/
theorem getCart_read_only_witness :
    (getCart "u1" ⟨[(1, ⟨"Apple", "fruit", 2, 10, "a.png", "produce"⟩)], [], []⟩).1 = .ok [] ∧
    ∀ v : UserId,
      (getCart v ⟨[(1, ⟨"Apple", "fruit", 2, 10, "a.png", "produce"⟩)], [], []⟩).2 =
        ⟨[(1, ⟨"Apple", "fruit", 2, 10, "a.png", "produce"⟩)], [], []⟩ :=
  getCart_read_only "u1" ⟨[(1, ⟨"Apple", "fruit", 2, 10, "a.png", "produce"⟩)], [], []⟩
    (by decide)

/-- **C10.** If a user's cart contains a line item whose referenced product
is missing from the catalog, `getCart` fails with an `Internal` error for
the whole request (the dangling line populates to null and its dereference
throws); it does not skip the dangling line and return the rest. -/
theorem getCart_dangling_reference (u : UserId) (db : DB) (c : Cart)
    (it : LineItem) (hc : cartOf u db = some c) (hmem : it ∈ c.items)
    (hmiss : findProduct it.productId db = none) :
    (getCart u db).1 = .error .Internal := by
  unfold getCart
  rw [hc]
  exact resolveItems_missing hmem hmiss

/-- Witness for C10: the cart references product 7, which is not in the
catalog (e.g. it was deleted). -/
theorem getCart_dangling_reference_witness :
    cartOf "u1" ⟨[], [⟨"u1", [⟨7, 2⟩]⟩], []⟩ = some ⟨"u1", [⟨7, 2⟩]⟩ ∧
    (⟨7, 2⟩ : LineItem) ∈ (Cart.mk "u1" [⟨7, 2⟩]).items ∧
    findProduct 7 ⟨[], [⟨"u1", [⟨7, 2⟩]⟩], []⟩ = none ∧
    (getCart "u1" ⟨[], [⟨"u1", [⟨7, 2⟩]⟩], []⟩).1 = .error .Internal :=
  ⟨by decide, by decide, by decide,
   getCart_dangling_reference "u1" ⟨[], [⟨"u1", [⟨7, 2⟩]⟩], []⟩ ⟨"u1", [⟨7, 2⟩]⟩
     ⟨7, 2⟩ (by decide) (by decide) (by decide)⟩

end Quickmart
